import Mathlib

/-!
Verification of the seawar_skeleton battleship engine
(src/seawar_skeleton/seaplayground.py) against its natural-language
specification.  The Python source is shallowly embedded: cell values are the
integer constants of class Cell, a Matrix/SeaField is a structure holding the
declared dimensions and the list-of-rows of cell values, and Python list
indexing (including negative-index wrap-around) is modelled explicitly.
Operations that the source implements by in-place mutation are modelled as
functions returning the new field; operations that may raise return an
Except value paired with the field left behind (the source raises before any
mutation on every error path, so the field component on an error is the
input field).
-/

set_option linter.unusedVariables false
set_option maxRecDepth 100000

deriving instance DecidableEq for Except

/-! ### Cell values (class Cell) and signals (class SIGNALS) -/

def Cell.EMPTY : Int := 0
def Cell.BORDER : Int := 1
def Cell.SHIP : Int := 10
def Cell.HIT : Int := -10
def Cell.MISSED : Int := -1
def Cell.PROBABLY_SHIP : Int := 5

def SIGNALS.WIN : Int := 5
def SIGNALS.KILLED : Int := 4
def SIGNALS.HITTING : Int := 3
def SIGNALS.MISS : Int := 2

/-! ### Python list indexing

Python resolves an index i into a list of length n as i itself when 0 <= i,
and as n + i when i < 0; the access succeeds when the resolved index is in
range and raises IndexError otherwise.  pyIndex returns the resolved index,
or none for the IndexError case. -/

/-- Resolve a Python list index (negative indices count from the end);
none models IndexError. -/
def pyIndex (n : Nat) (i : Int) : Option Nat :=
  let j : Int := if i < 0 then (n : Int) + i else i
  if 0 ≤ j ∧ j < (n : Int) then some j.toNat else none

/-- Python list read with Python index semantics. -/
def pyGetElem (l : List α) (i : Int) : Option α :=
  match pyIndex l.length i with
  | some j => l[j]?
  | none => none

/-- Python list element replacement with Python index semantics. -/
def pySetElem (l : List α) (i : Int) (v : α) : Option (List α) :=
  match pyIndex l.length i with
  | some j => some (l.set j v)
  | none => none

/-! ### Matrix / SeaField -/

/-- State of a Matrix / SeaField: the declared dimensions and the grid of
cell values, row by row (field[y][x] is the value of the cell at (x, y)),
exactly as built by Matrix.__init__. -/
structure SeaField where
  max_x : Int
  max_y : Int
  field : List (List Int)
deriving DecidableEq, Repr

/-- Matrix.__init__: a max_x by max_y grid with every cell value EMPTY. -/
def SeaField.make (w h : Nat) : SeaField :=
  { max_x := (w : Int), max_y := (h : Int),
    field := List.replicate h (List.replicate w Cell.EMPTY) }

/-- Matrix.get: value of field[coord_y][coord_x]; none models the
IndexError raised by Python when the index is out of range. -/
def SeaField.get (f : SeaField) (x y : Int) : Option Int :=
  match pyGetElem f.field y with
  | some row => pyGetElem row x
  | none => none

/-- Matrix.set: field[coord_y][coord_x].value = value; none models the
IndexError raised by Python when the index is out of range. -/
def SeaField.set (f : SeaField) (x y v : Int) : Option SeaField :=
  match pyGetElem f.field y with
  | none => none
  | some row =>
    match pySetElem row x v with
    | none => none
    | some row2 =>
      match pySetElem f.field y row2 with
      | none => none
      | some fld => some { f with field := fld }

/-- Total wrapper for Matrix.set, used at the call sites where the source
guarantees the coordinate has already been checked (so the Python call
cannot raise); if the write would fail the field is returned unchanged. -/
def SeaField.setc (f : SeaField) (x y v : Int) : SeaField :=
  match f.set x y v with
  | some g => g
  | none => f

/-- Matrix.is_coord_correct. -/
def SeaField.is_coord_correct (f : SeaField) (x y : Int) : Bool :=
  decide (0 ≤ x) && decide (x < f.max_x) && decide (0 ≤ y) && decide (y < f.max_y)

/-- Matrix.cells as built by Matrix.__init__: every coordinate (x, y) in
row-major order (y outer, x inner). -/
def SeaField.cellsList (f : SeaField) : List (Int × Int) :=
  (List.range f.max_y.toNat).flatMap fun j =>
    (List.range f.max_x.toNat).map fun i => ((i : Int), (j : Int))

/-- SeaField.is_cell_ship: the cell value is SHIP or HIT.  The source reads
the cell with an unchecked Matrix.get; every call site has already checked
the coordinate, so the none branch is unreachable there. -/
def SeaField.is_cell_ship (f : SeaField) (x y : Int) : Bool :=
  match f.get x y with
  | some v => v == Cell.SHIP || v == Cell.HIT
  | none => false

/-- SeaField.is_cell_empty: the cell value is EMPTY or PROBABLY_SHIP.  Same
unchecked read as is_cell_ship. -/
def SeaField.is_cell_empty (f : SeaField) (x y : Int) : Bool :=
  match f.get x y with
  | some v => v == Cell.EMPTY || v == Cell.PROBABLY_SHIP
  | none => false

/-- SeaField.has_any_alive_ship: some cell value is exactly SHIP. -/
def SeaField.has_any_alive_ship (f : SeaField) : Bool :=
  f.field.any fun row => row.any fun v => v == Cell.SHIP

/-- Well-formedness of a field: the stored dimensions are non-negative and
the grid really is max_y rows of max_x cells.  Matrix.__init__ establishes
this and every operation preserves it. -/
def SeaField.WF (f : SeaField) : Prop :=
  0 ≤ f.max_x ∧ 0 ≤ f.max_y ∧ f.field.length = f.max_y.toNat ∧
    ∀ row ∈ f.field, row.length = f.max_x.toNat

instance (f : SeaField) : Decidable f.WF := by
  unfold SeaField.WF; infer_instance

/-! ### Geometry helpers -/

/-- Countdown core of Matrix.next_cell: yields count cells starting at
(x, y), stepping along the x axis when not vertical and along the y axis
when vertical. -/
def next_cell_steps (x y : Int) (is_vertical : Bool) : Nat → Int → List (Int × Int)
  | 0, _ => []
  | n + 1, step =>
    (x, y) :: next_cell_steps (x + step * (if is_vertical then 0 else 1))
      (y + step * (if is_vertical then 1 else 0)) is_vertical n step

/-- Matrix.next_cell with a given length: the generator counts length,
length - 1, ..., stopping at the first non-positive value, so it yields
exactly max(length, 0) cells, here length.toNat. -/
def next_cell_list (x y : Int) (is_vertical : Bool) (length : Int) (step : Int) :
    List (Int × Int) :=
  next_cell_steps x y is_vertical length.toNat step

/-- SeaField._find_border_cells (with its filter_correct_coordinates
decorator): the one-cell-thick rectangular perimeter around a ship of the
given length at (x, y) — two end-caps of length v_length + 2 and two
side-rails of length h_length — filtered to in-bounds coordinates. -/
def SeaField.find_border_cells (f : SeaField) (x y : Int) (length : Int)
    (is_vertical : Bool) : List (Int × Int) :=
  let v_length : Int := if is_vertical then length else 1
  let h_length : Int := if is_vertical then 1 else length
  (next_cell_list (x - 1) (y - 1) true (v_length + 2) 1 ++
   next_cell_list (x + h_length) (y - 1) true (v_length + 2) 1 ++
   next_cell_list x (y - 1) false h_length 1 ++
   next_cell_list x (y + v_length) false h_length 1).filter
    fun c => f.is_coord_correct c.1 c.2

/-- SeaField._find_cell_corners (with its filter_correct_coordinates
decorator): the four diagonal neighbours of (x, y), in the order of
product((-1, 1), (-1, 1)), filtered to in-bounds coordinates. -/
def SeaField.find_cell_corners (f : SeaField) (x y : Int) : List (Int × Int) :=
  ([(x - 1, y - 1), (x - 1, y + 1), (x + 1, y - 1), (x + 1, y + 1)]).filter
    fun c => f.is_coord_correct c.1 c.2

/-- SeaField._find_cell_ribs (with its filter_correct_coordinates
decorator): the four orthogonal neighbours of (x, y), filtered to in-bounds
coordinates. -/
def SeaField.find_cell_ribs (f : SeaField) (x y : Int) : List (Int × Int) :=
  ([(x - 1, y), (x + 1, y), (x, y - 1), (x, y + 1)]).filter
    fun c => f.is_coord_correct c.1 c.2

/-! ### Placement primitives -/

/-- SeaField.set_ship: mark every cell of the ship body SHIP, in ray
order. -/
def SeaField.set_ship (f : SeaField) (x y : Int) (length : Int)
    (is_vertical : Bool) : SeaField :=
  (next_cell_list x y is_vertical length 1).foldl
    (fun g c => g.setc c.1 c.2 Cell.SHIP) f

/-- Body of the marking loop of SeaField.set_border: walk the given cells in
order and mark BORDER each one whose current value is EMPTY or
PROBABLY_SHIP. -/
def SeaField.markBorderCells (f : SeaField) (cells : List (Int × Int)) : SeaField :=
  cells.foldl
    (fun g c => if g.is_cell_empty c.1 c.2 then g.setc c.1 c.2 Cell.BORDER else g) f

/-- SeaField.set_border: when a truthy (non-zero, non-None) length is given
the cells to mark come from _find_border_cells, otherwise from
_find_cell_corners; each cell still EMPTY or PROBABLY_SHIP is set BORDER. -/
def SeaField.set_border (f : SeaField) (x y : Int) (length : Option Int)
    (is_vertical : Bool) : SeaField :=
  match length with
  | some l =>
    if l ≠ 0 then f.markBorderCells (f.find_border_cells x y l is_vertical)
    else f.markBorderCells (f.find_cell_corners x y)
  | none => f.markBorderCells (f.find_cell_corners x y)

/-- SeaField.is_cell_suitable: every cell of the would-be ship body is
in-bounds and EMPTY or PROBABLY_SHIP. -/
def SeaField.is_cell_suitable (f : SeaField) (x y : Int) (length : Int)
    (is_vertical : Bool) : Bool :=
  (next_cell_list x y is_vertical length 1).all
    fun c => f.is_coord_correct c.1 c.2 && f.is_cell_empty c.1 c.2

/-! ### Ship tracing -/

/-- Total order on coordinates used to canonicalise the Python sets of
coordinates that the source builds (x first, then y). -/
def cellLe (a b : Int × Int) : Bool :=
  decide (a.1 < b.1) || (a.1 == b.1 && decide (a.2 ≤ b.2))

/-- Ordered duplicate-free insertion with respect to cellLe. -/
def insertCellSorted (c : Int × Int) : List (Int × Int) → List (Int × Int)
  | [] => [c]
  | d :: l =>
    if c = d then d :: l
    else if cellLe c d then c :: d :: l
    else d :: insertCellSorted c l

/-- Canonical (sorted, duplicate-free) list representing a Python set of
coordinates. -/
def canonCells (l : List (Int × Int)) : List (Int × Int) :=
  l.foldr insertCellSorted []

/-- One direction of the contiguous-run walk inside
SeaField.find_ship_by_cells: takewhile over the unbounded generator
Matrix.next_cell, collecting cells while they are in-bounds and in state
SHIP or HIT.  The Python iteration is unbounded but stops at the first
out-of-bounds coordinate; since each step moves exactly one cell along one
axis, any fuel above max_x + max_y reproduces it exactly. -/
def shipRay (f : SeaField) (x y : Int) (is_vertical : Bool) (step : Int) :
    Nat → List (Int × Int)
  | 0 => []
  | fuel + 1 =>
    if f.is_coord_correct x y && f.is_cell_ship x y then
      (x, y) :: shipRay f (x + step * (if is_vertical then 0 else 1))
        (y + step * (if is_vertical then 1 else 0)) is_vertical step fuel
    else []

/-- Fuel that exhausts any in-bounds walk of the board. -/
def SeaField.rayFuel (f : SeaField) : Nat := (f.max_x + f.max_y).toNat + 1

/-- SeaField.find_ship_by_cells: union of the four directional walks from
(x, y), in the order of product([-1, 1], [True, False]); the Python set it
returns is represented canonically. -/
def SeaField.find_ship_by_cells (f : SeaField) (x y : Int) : List (Int × Int) :=
  canonCells
    (shipRay f x y true (-1) f.rayFuel ++ shipRay f x y false (-1) f.rayFuel ++
     shipRay f x y true 1 f.rayFuel ++ shipRay f x y false 1 f.rayFuel)

/-- SeaField.find_ship_vector: bounding vector of a non-empty cell set —
minimal coordinates, 1 + the larger span, and vertical exactly when the y
span equals the larger span.  The source raises on an empty sequence; the
empty case here is an arbitrary unreachable default. -/
def SeaField.find_ship_vector : List (Int × Int) → Int × Int × Int × Bool
  | [] => (0, 0, 1, false)
  | c :: rest =>
    let x1 := (rest.map Prod.fst).foldl min c.1
    let y1 := (rest.map Prod.snd).foldl min c.2
    let x2 := (rest.map Prod.fst).foldl max c.1
    let y2 := (rest.map Prod.snd).foldl max c.2
    let length := max (x2 - x1) (y2 - y1)
    (x1, y1, length + 1, y1 + length == y2)

/-! ### Errors and the placement engine -/

/-- Exceptions of the engine: IncorrectCoordinate, its subclass
IncorrectShipPosition, and NoSpaceLeft. -/
inductive SeaErr where
  | incorrectCoordinate
  | incorrectShipPosition
  | noSpaceLeft
deriving DecidableEq, Repr

def STANDARD_SHIP_FLEET : List Int := [4, 3, 3, 2, 2, 2, 1, 1, 1, 1]

/-- SeaPlayground.put_ship (with its check_coordinates decorator): the
coordinate check and the suitability check both happen before any cell is
written, so the field returned on an error is the input field. -/
def SeaPlayground.put_ship (f : SeaField) (x y : Int) (length : Int)
    (is_vertical : Bool) : Except SeaErr Unit × SeaField :=
  if f.is_coord_correct x y then
    if f.is_cell_suitable x y length is_vertical then
      (Except.ok (),
        (f.set_ship x y length is_vertical).set_border x y (some length) is_vertical)
    else (Except.error SeaErr.incorrectShipPosition, f)
  else (Except.error SeaErr.incorrectCoordinate, f)

/-- SeaPlayground.get_suitable_cells: the list comprehension over
product(field.cells, (True, False)) keeping the placements that satisfy
is_cell_suitable. -/
def SeaPlayground.get_suitable_cells (f : SeaField) (length : Int) :
    List (Int × Int × Bool) :=
  f.cellsList.flatMap fun c =>
    [true, false].filterMap fun v =>
      if f.is_cell_suitable c.1 c.2 length v then some (c.1, c.2, v) else none

/-- SeaPlayground._put_ship_random with the call to random.choice made
explicit: pick supplies the random draw, reduced modulo the number of
candidates so that, as in the source, some candidate is always chosen when
any exists. -/
def SeaPlayground.put_ship_random (pick : List (Int × Int × Bool) → Nat)
    (f : SeaField) (length : Int) : Except SeaErr Unit × SeaField :=
  let cells := SeaPlayground.get_suitable_cells f length
  if cells.isEmpty then (Except.error SeaErr.noSpaceLeft, f)
  else
    let c := cells.getD (pick cells % cells.length) (0, 0, false)
    (Except.ok (),
      (f.set_ship c.1 c.2.1 length c.2.2).set_border c.1 c.2.1 (some length) c.2.2)

/-- Loop body of SeaPlayground.put_ships_random: place each length in turn,
stopping at the first NoSpaceLeft and keeping the ships already placed. -/
def SeaPlayground.put_ships_list (pick : List (Int × Int × Bool) → Nat)
    (f : SeaField) : List Int → Except SeaErr Unit × SeaField
  | [] => (Except.ok (), f)
  | len :: rest =>
    match SeaPlayground.put_ship_random pick f len with
    | (Except.error e, g) => (Except.error e, g)
    | (Except.ok _, g) => SeaPlayground.put_ships_list pick g rest

/-- SeaPlayground.put_ships_random: a falsy fleet argument (absent, or the
empty list) is replaced by STANDARD_SHIP_FLEET. -/
def SeaPlayground.put_ships_random (pick : List (Int × Int × Bool) → Nat)
    (f : SeaField) (fleet : Option (List Int)) : Except SeaErr Unit × SeaField :=
  let fl := match fleet with
    | none => STANDARD_SHIP_FLEET
    | some l => if l.isEmpty then STANDARD_SHIP_FLEET else l
  SeaPlayground.put_ships_list pick f fl

/-! ### Shot resolution -/

/-- Result dictionary of SeaPlayground.income_shoot_to. -/
structure ShootAnswer where
  signal : Int
  cells : List (Int × Int)
deriving DecidableEq, Repr

/-- SeaPlayground._get_killed_ship: the traced ship when every one of its
cells is HIT, otherwise the empty list. -/
def SeaPlayground.get_killed_ship (f : SeaField) (x y : Int) : List (Int × Int) :=
  let ship_cells := f.find_ship_by_cells x y
  if ship_cells.all (fun c => f.get c.1 c.2 == some Cell.HIT) then ship_cells
  else []

/-- SeaPlayground.income_shoot_to (with its check_coordinates decorator). -/
def SeaPlayground.income_shoot_to (f : SeaField) (x y : Int) :
    Except SeaErr ShootAnswer × SeaField :=
  if f.is_coord_correct x y then
    let sm := if f.is_cell_ship x y then (SIGNALS.HITTING, Cell.HIT)
              else (SIGNALS.MISS, Cell.MISSED)
    let f1 := f.setc x y sm.2
    let killed_cells := if sm.1 == SIGNALS.HITTING
                        then SeaPlayground.get_killed_ship f1 x y else []
    let signal := if killed_cells.isEmpty then sm.1
                  else if f1.has_any_alive_ship then SIGNALS.KILLED else SIGNALS.WIN
    (Except.ok { signal := signal,
                 cells := if killed_cells.isEmpty then [(x, y)] else killed_cells },
     f1)
  else (Except.error SeaErr.incorrectCoordinate, f)

/-- SeaPlayground._shoot_answer_mark_cell: every reported cell is written
HIT for the HITTING, KILLED and WIN signals and MISSED otherwise. -/
def SeaPlayground.shoot_answer_mark_cell (f : SeaField) (signal : Int)
    (cells : List (Int × Int)) : SeaField :=
  let answer := if signal == SIGNALS.HITTING || signal == SIGNALS.KILLED ||
                   signal == SIGNALS.WIN then Cell.HIT else Cell.MISSED
  cells.foldl (fun g c => g.setc c.1 c.2 answer) f

/-- SeaPlayground._shoot_answer_mark_border: only the KILLED signal marks
the border of the reconstructed vector, and only the HITTING signal marks
the corner cells of the first reported cell; every other signal (WIN
included) marks nothing.  The HITTING branch reads cells[0], which raises
in Python on an empty list; the empty case here is an unreachable
default. -/
def SeaPlayground.shoot_answer_mark_border (f : SeaField) (signal : Int)
    (cells : List (Int × Int)) : SeaField :=
  if signal == SIGNALS.KILLED then
    let v := SeaField.find_ship_vector cells
    f.set_border v.1 v.2.1 (some v.2.2.1) v.2.2.2
  else if signal == SIGNALS.HITTING then
    match cells with
    | c :: _ => f.set_border c.1 c.2 none false
    | [] => f
  else f

/-- SeaPlayground.handle_shoot_answer: all reported coordinates are checked
before any cell is written. -/
def SeaPlayground.handle_shoot_answer (f : SeaField) (signal : Int)
    (cells : List (Int × Int)) : Except SeaErr Unit × SeaField :=
  if cells.all (fun c => f.is_coord_correct c.1 c.2) then
    let f1 := SeaPlayground.shoot_answer_mark_cell f signal cells
    (Except.ok (), SeaPlayground.shoot_answer_mark_border f1 signal cells)
  else (Except.error SeaErr.incorrectCoordinate, f)

/-- ComputerPlayer.handle_shoot_answer acting on the player's tracking
field: after the shared handler, a HITTING signal additionally marks every
in-bounds orthogonal neighbour of each reported cell that is still EMPTY or
PROBABLY_SHIP as PROBABLY_SHIP. -/
def ComputerPlayer.handle_shoot_answer (f : SeaField) (signal : Int)
    (cells : List (Int × Int)) : Except SeaErr Unit × SeaField :=
  match SeaPlayground.handle_shoot_answer f signal cells with
  | (Except.error e, g) => (Except.error e, g)
  | (Except.ok _, g) =>
    if signal == SIGNALS.HITTING then
      (Except.ok (), cells.foldl (fun g1 c =>
        (g1.find_cell_ribs c.1 c.2).foldl
          (fun h r => if h.is_cell_empty r.1 r.2
                      then h.setc r.1 r.2 Cell.PROBABLY_SHIP else h) g1) g)
    else (Except.ok (), g)

/-! ### Specification-side definitions (for refinement claims) -/

/-- Modelled from the spec: suitableCells must list, in the order of
allCoordinates() paired with vertical before horizontal, exactly the
placements satisfying isCellSuitable; written here directly from the
spec's words as a filter of the ordered enumeration. -/
def suitableCellsSpec (f : SeaField) (length : Int) : List (Int × Int × Bool) :=
  (((List.range f.max_y.toNat).flatMap fun j =>
      (List.range f.max_x.toNat).map fun i => ((i : Int), (j : Int))).flatMap
    fun c => [(c.1, c.2, true), (c.1, c.2, false)]).filter
    fun t => f.is_cell_suitable t.1 t.2.1 length t.2.2

/-! ### Lemmas about the embedding -/

theorem pyIndex_eq_none_iff {n : Nat} {i : Int} :
    pyIndex n i = none ↔ ((n : Int) ≤ i ∨ i < -(n : Int)) := by
  simp only [pyIndex]
  split_ifs with h1 <;> simp_all <;> omega

theorem pyIndex_lt {n : Nat} {i : Int} {j : Nat} (h : pyIndex n i = some j) :
    j < n := by
  simp only [pyIndex] at h
  split_ifs at h with h1 h2 h3 <;> simp_all <;> omega

theorem pyIndex_isSome {n : Nat} {i : Int} (h : -(n : Int) ≤ i) (h2 : i < (n : Int)) :
    ∃ j, pyIndex n i = some j ∧ j < n := by
  simp only [pyIndex]
  split_ifs with h1 h2 h3 <;> first | exact ⟨_, rfl, by omega⟩ | (exfalso; omega)

theorem pyGetElem_eq_none_iff {l : List α} {i : Int} :
    pyGetElem l i = none ↔ ((l.length : Int) ≤ i ∨ i < -(l.length : Int)) := by
  unfold pyGetElem
  rcases hp : pyIndex l.length i with _ | j
  · simp only [true_iff]
    exact pyIndex_eq_none_iff.mp hp
  · have hj := pyIndex_lt hp
    simp only [List.getElem?_eq_getElem hj, reduceCtorEq, false_iff]
    intro hc
    have := pyIndex_eq_none_iff.mpr hc
    rw [hp] at this
    cases this

theorem pyGetElem_mem {l : List α} {i : Int} {a : α} (h : pyGetElem l i = some a) :
    a ∈ l := by
  unfold pyGetElem at h
  rcases hp : pyIndex l.length i with _ | j <;> rw [hp] at h
  · cases h
  · exact List.getElem?_mem h

theorem pySetElem_eq_none_iff {l : List α} {i : Int} {v : α} :
    pySetElem l i v = none ↔ ((l.length : Int) ≤ i ∨ i < -(l.length : Int)) := by
  unfold pySetElem
  rcases hp : pyIndex l.length i with _ | j
  · simp only [true_iff]
    exact pyIndex_eq_none_iff.mp hp
  · simp only [reduceCtorEq, false_iff]
    intro hc
    have := pyIndex_eq_none_iff.mpr hc
    rw [hp] at this
    cases this

theorem pyGetElem_eq_some_elim {l : List α} {i : Int} {a : α}
    (h : pyGetElem l i = some a) :
    ∃ j, pyIndex l.length i = some j ∧ l[j]? = some a := by
  unfold pyGetElem at h
  rcases hp : pyIndex l.length i with _ | j <;> rw [hp] at h
  · cases h
  · exact ⟨j, rfl, h⟩

theorem pySetElem_eq_some_elim {l : List α} {i : Int} {v : α} {l2 : List α}
    (h : pySetElem l i v = some l2) :
    ∃ j, pyIndex l.length i = some j ∧ l2 = l.set j v := by
  unfold pySetElem at h
  rcases hp : pyIndex l.length i with _ | j <;> rw [hp] at h
  · cases h
  · cases h; exact ⟨j, rfl, rfl⟩

theorem pyGetElem_some_of_index {l : List α} {i : Int} {j : Nat}
    (h : pyIndex l.length i = some j) : pyGetElem l i = l[j]? := by
  unfold pyGetElem; rw [h]

theorem pySetElem_some_of_index {l : List α} {i : Int} {j : Nat} (v : α)
    (h : pyIndex l.length i = some j) : pySetElem l i v = some (l.set j v) := by
  unfold pySetElem; rw [h]

theorem list_set_self {l : List α} {j : Nat} {a : α} (h : l[j]? = some a) :
    l.set j a = l := by
  induction l generalizing j with
  | nil => cases h
  | cons b t ih =>
    cases j with
    | zero =>
      simp only [List.getElem?_cons_zero, Option.some.injEq] at h
      subst h; rfl
    | succ j2 =>
      simp only [List.getElem?_cons_succ] at h
      simp only [List.set_cons_succ]
      rw [ih h]

theorem SeaField.set_eq_some_elim {f g : SeaField} {x y v : Int}
    (h : f.set x y v = some g) :
    ∃ jy row jx, pyIndex f.field.length y = some jy ∧ f.field[jy]? = some row ∧
      pyIndex row.length x = some jx ∧
      g = { f with field := f.field.set jy (row.set jx v) } := by
  unfold SeaField.set at h
  split at h
  · cases h
  rename_i row hrow
  split at h
  · cases h
  rename_i row2 hr2
  split at h
  · cases h
  rename_i fld hf2
  cases h
  obtain ⟨jy, h1, h2⟩ := pyGetElem_eq_some_elim hrow
  obtain ⟨jx, h3, h4⟩ := pySetElem_eq_some_elim hr2
  obtain ⟨jy2, h5, h6⟩ := pySetElem_eq_some_elim hf2
  rw [h1] at h5
  cases h5
  exact ⟨jy, row, jx, h1, h2, h3, by rw [h6, h4]⟩

theorem SeaField.set_intro {f : SeaField} {x y : Int} {jy jx : Nat} {row : List Int} (v : Int)
    (h1 : pyIndex f.field.length y = some jy) (h2 : f.field[jy]? = some row)
    (h3 : pyIndex row.length x = some jx) :
    f.set x y v = some { f with field := f.field.set jy (row.set jx v) } := by
  unfold SeaField.set
  rw [pyGetElem_some_of_index h1, h2]
  dsimp only
  rw [pySetElem_some_of_index v h3]
  dsimp only
  rw [pySetElem_some_of_index _ h1]

theorem SeaField.get_elim {f : SeaField} {x y : Int} {v : Int} (h : f.get x y = some v) :
    ∃ jy row jx, pyIndex f.field.length y = some jy ∧ f.field[jy]? = some row ∧
      pyIndex row.length x = some jx ∧ row[jx]? = some v := by
  unfold SeaField.get at h
  rcases hrow : pyGetElem f.field y with _ | row <;> rw [hrow] at h
  · cases h
  · obtain ⟨jy, h1, h2⟩ := pyGetElem_eq_some_elim hrow
    obtain ⟨jx, h3, h4⟩ := pyGetElem_eq_some_elim h
    exact ⟨jy, row, jx, h1, h2, h3, h4⟩

theorem SeaField.setc_of_get_self {f : SeaField} {x y v : Int} (h : f.get x y = some v) :
    f.setc x y v = f := by
  obtain ⟨jy, row, jx, h1, h2, h3, h4⟩ := SeaField.get_elim h
  have hset := SeaField.set_intro (f := f) v h1 h2 h3
  rw [list_set_self h4, list_set_self h2] at hset
  unfold SeaField.setc
  rw [hset]

theorem SeaField.set_set_self {f g : SeaField} {x y v : Int} (h : f.set x y v = some g) :
    g.set x y v = some g := by
  obtain ⟨jy, row, jx, h1, h2, h3, rfl⟩ := SeaField.set_eq_some_elim h
  have hjy : jy < f.field.length := pyIndex_lt h1
  have h1' : pyIndex (SeaField.field { f with field := f.field.set jy (row.set jx v) }).length y
      = some jy := by
    simp only [List.length_set]
    exact h1
  have h2' : (SeaField.field { f with field := f.field.set jy (row.set jx v) })[jy]?
      = some (row.set jx v) := by
    simp only
    exact List.getElem?_set_eq_of_lt _ hjy
  have h3' : pyIndex (row.set jx v).length x = some jx := by
    rw [List.length_set]
    exact h3
  have hres := SeaField.set_intro v h1' h2' h3'
  simp only [List.set_set] at hres
  exact hres

theorem SeaField.setc_idem (f : SeaField) (x y v : Int) :
    (f.setc x y v).setc x y v = f.setc x y v := by
  rcases h : f.set x y v with _ | g
  · simp [SeaField.setc, h]
  · simp [SeaField.setc, h, SeaField.set_set_self h]

theorem SeaField.setc_max_x (f : SeaField) (x y v : Int) :
    (f.setc x y v).max_x = f.max_x := by
  rcases h : f.set x y v with _ | g
  · simp [SeaField.setc, h]
  · obtain ⟨jy, row, jx, h1, h2, h3, rfl⟩ := SeaField.set_eq_some_elim h
    simp [SeaField.setc, h]

theorem SeaField.setc_max_y (f : SeaField) (x y v : Int) :
    (f.setc x y v).max_y = f.max_y := by
  rcases h : f.set x y v with _ | g
  · simp [SeaField.setc, h]
  · obtain ⟨jy, row, jx, h1, h2, h3, rfl⟩ := SeaField.set_eq_some_elim h
    simp [SeaField.setc, h]

theorem SeaField.is_coord_correct_setc (f : SeaField) (x y v a b : Int) :
    (f.setc x y v).is_coord_correct a b = f.is_coord_correct a b := by
  unfold SeaField.is_coord_correct
  rw [SeaField.setc_max_x, SeaField.setc_max_y]

theorem SeaField.get_eq_none_iff {f : SeaField} (hWF : f.WF) {x y : Int} :
    f.get x y = none ↔
      (f.max_x ≤ x ∨ x < -f.max_x ∨ f.max_y ≤ y ∨ y < -f.max_y) := by
  obtain ⟨hx, hy, hlen, hrows⟩ := hWF
  have hleny : (f.field.length : Int) = f.max_y := by rw [hlen]; omega
  unfold SeaField.get
  split
  · rename_i row hrow
    have hrl : (row.length : Int) = f.max_x := by
      rw [hrows row (pyGetElem_mem hrow)]; omega
    have hny : ¬((f.field.length : Int) ≤ y ∨ y < -(f.field.length : Int)) := by
      intro hc
      rw [pyGetElem_eq_none_iff.mpr hc] at hrow
      cases hrow
    rw [pyGetElem_eq_none_iff]
    constructor
    · intro hxc; omega
    · intro hc; omega
  · rename_i hrow
    have hyc := pyGetElem_eq_none_iff.mp hrow
    simp only [true_iff]
    omega

theorem SeaField.set_eq_none_iff {f : SeaField} (hWF : f.WF) {x y v : Int} :
    f.set x y v = none ↔
      (f.max_x ≤ x ∨ x < -f.max_x ∨ f.max_y ≤ y ∨ y < -f.max_y) := by
  obtain ⟨hx, hy, hlen, hrows⟩ := hWF
  have hleny : (f.field.length : Int) = f.max_y := by rw [hlen]; omega
  unfold SeaField.set
  split
  · rename_i hrow
    have hyc := pyGetElem_eq_none_iff.mp hrow
    simp only [true_iff]
    omega
  · rename_i row hrow
    have hrl : (row.length : Int) = f.max_x := by
      rw [hrows row (pyGetElem_mem hrow)]; omega
    have hny : ¬((f.field.length : Int) ≤ y ∨ y < -(f.field.length : Int)) := by
      intro hc
      rw [pyGetElem_eq_none_iff.mpr hc] at hrow
      cases hrow
    split
    · rename_i hs
      have hxc := pySetElem_eq_none_iff.mp hs
      simp only [true_iff]
      omega
    · rename_i row2 hs
      split
      · rename_i hf2
        exfalso
        obtain ⟨jy, h1, _⟩ := pyGetElem_eq_some_elim hrow
        rw [pySetElem_some_of_index row2 h1] at hf2
        cases hf2
      · rename_i fld hf2
        simp only [reduceCtorEq, false_iff]
        intro hc
        rcases hc with hc | hc | hc | hc
        · rw [pySetElem_eq_none_iff.mpr (by omega)] at hs; cases hs
        · rw [pySetElem_eq_none_iff.mpr (by omega)] at hs; cases hs
        · exact hny (by omega)
        · exact hny (by omega)

theorem mem_insertCellSorted {a c : Int × Int} {l : List (Int × Int)} :
    a ∈ insertCellSorted c l ↔ a = c ∨ a ∈ l := by
  induction l with
  | nil => simp [insertCellSorted]
  | cons d t ih =>
    unfold insertCellSorted
    split_ifs with h1 h2
    · subst h1
      simp only [List.mem_cons]
      constructor
      · intro hh; exact Or.inr hh
      · rintro (rfl | hh)
        · exact Or.inl rfl
        · exact hh
    · simp [List.mem_cons]
    · simp only [List.mem_cons, ih]
      tauto

theorem mem_canonCells {a : Int × Int} {l : List (Int × Int)} :
    a ∈ canonCells l ↔ a ∈ l := by
  unfold canonCells
  induction l with
  | nil => simp
  | cons c t ih =>
    simp only [List.foldr_cons, mem_insertCellSorted, List.mem_cons, ih]

theorem canonCells_ne_nil {a : Int × Int} {l : List (Int × Int)} (h : a ∈ l) :
    canonCells l ≠ [] := by
  intro hc
  have := mem_canonCells.mpr h
  rw [hc] at this
  cases this

theorem find_ship_by_cells_self_mem {f : SeaField} {x y : Int}
    (h1 : f.is_coord_correct x y = true) (h2 : f.is_cell_ship x y = true) :
    (x, y) ∈ f.find_ship_by_cells x y := by
  unfold SeaField.find_ship_by_cells
  rw [mem_canonCells]
  apply List.mem_append_left
  apply List.mem_append_left
  apply List.mem_append_left
  unfold SeaField.rayFuel
  unfold shipRay
  rw [h1, h2]
  simp

theorem flatMap_filterMap_pair (l : List (Int × Int)) (p : Int → Int → Bool → Bool) :
    (l.flatMap fun c => [true, false].filterMap fun v =>
        if p c.1 c.2 v then some (c.1, c.2, v) else none)
      = (l.flatMap fun c => [(c.1, c.2, true), (c.1, c.2, false)]).filter
          fun t => p t.1 t.2.1 t.2.2 := by
  induction l with
  | nil => rfl
  | cons c t ih =>
    simp only [List.flatMap_cons, List.filter_append, ih]
    congr 1
    rcases hT : p c.1 c.2 true <;> rcases hF : p c.1 c.2 false <;>
      simp [List.filterMap, List.filter, hT, hF]

/-! ### Claims -/

/-- Claim C1, counterexample: Matrix.get and Matrix.set do not fail on the
negative coordinate x = -1 on a fresh 10 by 10 board; get returns the value
of the wrapped-around cell (9, 0) and set mutates that cell, contradicting
the claim that every out-of-range coordinate fails without returning a
value or mutating a cell. -/
theorem claim_C1_counterexample :
    (SeaField.make 10 10).get (-1) 0 = some Cell.EMPTY ∧
    (((SeaField.make 10 10).set (-1) 0 Cell.SHIP).bind fun g => g.get 9 0)
      = some Cell.SHIP := by decide

/-- Claim C1 (amended): on a well-formed board, Matrix.get and Matrix.set
fail (raise IndexError) exactly when x is at least W, or below -W, or y is
at least H, or below -H; coordinates in [-W, 0) and [-H, 0) are accepted by
Python negative indexing and do return or mutate a cell. -/
theorem claim_C1 (f : SeaField) (hWF : f.WF) (x y v : Int) :
    (f.get x y = none ↔
      (f.max_x ≤ x ∨ x < -f.max_x ∨ f.max_y ≤ y ∨ y < -f.max_y)) ∧
    (f.set x y v = none ↔
      (f.max_x ≤ x ∨ x < -f.max_x ∨ f.max_y ≤ y ∨ y < -f.max_y)) :=
  ⟨SeaField.get_eq_none_iff hWF, SeaField.set_eq_none_iff hWF⟩

/-- Witness for claim C1 at a concrete board and coordinate. -/
theorem claim_C1_witness :
    (SeaField.make 10 10).get 12 0 = none ↔
      ((SeaField.make 10 10).max_x ≤ 12 ∨ (12 : Int) < -(SeaField.make 10 10).max_x ∨
       (SeaField.make 10 10).max_y ≤ 0 ∨ (0 : Int) < -(SeaField.make 10 10).max_y) :=
  (claim_C1 (SeaField.make 10 10) (by decide) 12 0 0).1

/-- Claim C5: put_ship on an empty 5 by 5 board at (1, 1), length 3,
horizontal, succeeds and leaves exactly (1,1), (2,1), (3,1) as SHIP,
exactly the 12 surrounding perimeter cells as BORDER, and every other cell
EMPTY. -/
theorem claim_C5 :
    (SeaPlayground.put_ship (SeaField.make 5 5) 1 1 3 false).1 = Except.ok () ∧
    (SeaPlayground.put_ship (SeaField.make 5 5) 1 1 3 false).2.field =
      [[1, 1, 1, 1, 1],
       [1, 10, 10, 10, 1],
       [1, 1, 1, 1, 1],
       [0, 0, 0, 0, 0],
       [0, 0, 0, 0, 0]] := by decide

/-- Claim C4: shot sequence against a single horizontal length-3 ship
placed at (2, 2): the four shots beside the ship each return MISS, then
(2, 2) and (3, 2) return HITTING with the single shot cell, and (4, 2)
returns WIN carrying all three ship coordinates; with a second ship still
alive the last shot returns KILLED instead. -/
theorem claim_C4 :
    (let b0 := (SeaPlayground.put_ship (SeaField.make 10 10) 2 2 3 false).2
     let r1 := SeaPlayground.income_shoot_to b0 3 0
     let r2 := SeaPlayground.income_shoot_to r1.2 3 1
     let r3 := SeaPlayground.income_shoot_to r2.2 3 3
     let r4 := SeaPlayground.income_shoot_to r3.2 3 4
     let r5 := SeaPlayground.income_shoot_to r4.2 2 2
     let r6 := SeaPlayground.income_shoot_to r5.2 3 2
     let r7 := SeaPlayground.income_shoot_to r6.2 4 2
     r1.1 = Except.ok { signal := SIGNALS.MISS, cells := [(3, 0)] } ∧
     r2.1 = Except.ok { signal := SIGNALS.MISS, cells := [(3, 1)] } ∧
     r3.1 = Except.ok { signal := SIGNALS.MISS, cells := [(3, 3)] } ∧
     r4.1 = Except.ok { signal := SIGNALS.MISS, cells := [(3, 4)] } ∧
     r5.1 = Except.ok { signal := SIGNALS.HITTING, cells := [(2, 2)] } ∧
     r6.1 = Except.ok { signal := SIGNALS.HITTING, cells := [(3, 2)] } ∧
     r7.1 = Except.ok { signal := SIGNALS.WIN, cells := [(2, 2), (3, 2), (4, 2)] }) ∧
    (let b0 := (SeaPlayground.put_ship (SeaField.make 10 10) 2 2 3 false).2
     let b1 := (SeaPlayground.put_ship b0 6 6 1 false).2
     let k5 := SeaPlayground.income_shoot_to b1 2 2
     let k6 := SeaPlayground.income_shoot_to k5.2 3 2
     let k7 := SeaPlayground.income_shoot_to k6.2 4 2
     k7.1 = Except.ok { signal := SIGNALS.KILLED, cells := [(2, 2), (3, 2), (4, 2)] }) := by
  decide

/-- Claim C3, counterexample: placing a length-1 ship at (2, 2) on an empty
5 by 5 board marks (1, 2) BORDER, although (1, 2) is not one of the four
diagonal corner cells of (2, 2) — so the border marking is not restricted
to the cornerCells set. -/
theorem claim_C3_counterexample :
    (SeaPlayground.put_ship (SeaField.make 5 5) 2 2 1 false).2.get 1 2
      = some Cell.BORDER ∧
    (1, 2) ∉ (SeaField.make 5 5).find_cell_corners 2 2 := by decide

/-- Claim C3 (amended): placing a suitable length-1 ship marks BORDER via
the full one-cell perimeter list _find_border_cells (up to 8 in-bounds
cells), not the cornerCells set (the corner path of set_border is reached
only when no length is passed, which put_ship never does); on an empty
5 by 5 board at (2, 2) exactly the 8 surrounding cells become BORDER. -/
theorem claim_C3 (f : SeaField) (x y : Int) (v : Bool)
    (h1 : f.is_coord_correct x y = true)
    (h2 : f.is_cell_suitable x y 1 v = true) :
    SeaPlayground.put_ship f x y 1 v =
      (Except.ok (), (f.set_ship x y 1 v).markBorderCells
        ((f.set_ship x y 1 v).find_border_cells x y 1 v)) ∧
    (SeaPlayground.put_ship (SeaField.make 5 5) 2 2 1 false).2.field =
      [[0, 0, 0, 0, 0],
       [0, 1, 1, 1, 0],
       [0, 1, 10, 1, 0],
       [0, 1, 1, 1, 0],
       [0, 0, 0, 0, 0]] := by
  constructor
  · simp only [SeaPlayground.put_ship, h1, h2, if_true, SeaField.set_border]
    norm_num
  · decide

/-- Witness for claim C3 at a concrete suitable placement. -/
theorem claim_C3_witness :
    SeaPlayground.put_ship (SeaField.make 5 5) 2 2 1 false =
      (Except.ok (), ((SeaField.make 5 5).set_ship 2 2 1 false).markBorderCells
        (((SeaField.make 5 5).set_ship 2 2 1 false).find_border_cells 2 2 1 false)) :=
  (claim_C3 (SeaField.make 5 5) 2 2 false (by decide) (by decide)).1

/-- Claim C2, counterexample: on a fresh 5 by 5 tracking board with the
cell set of a killed vertical ship at (1, 1)-(1, 2), the KILLED signal
marks the border cell (0, 0) BORDER but the WIN signal leaves it EMPTY —
the WIN signal does not mark any border, contradicting the claim that WIN
marks the same border cells as KILLED. -/
theorem claim_C2_counterexample :
    (SeaPlayground.handle_shoot_answer (SeaField.make 5 5) SIGNALS.WIN
        [(1, 1), (1, 2)]).2.get 0 0 = some Cell.EMPTY ∧
    (SeaPlayground.handle_shoot_answer (SeaField.make 5 5) SIGNALS.KILLED
        [(1, 1), (1, 2)]).2.get 0 0 = some Cell.BORDER := by decide

/-- Claim C2 (amended): handle_shoot_answer with KILLED reconstructs the
ship's bounding vector with find_ship_vector and applies set_border for it
after marking the cells HIT, while WIN only marks the cells HIT and adds no
border at all; find_ship_vector on the vertical set (1,0)..(1,3) is the
vector (1, 0, 4, vertical). -/
theorem claim_C2 (f : SeaField) (cells : List (Int × Int))
    (hc : (cells.all fun c => f.is_coord_correct c.1 c.2) = true)
    (hne : cells ≠ []) :
    SeaPlayground.handle_shoot_answer f SIGNALS.KILLED cells =
      (Except.ok (),
        (SeaPlayground.shoot_answer_mark_cell f SIGNALS.KILLED cells).set_border
          (SeaField.find_ship_vector cells).1 (SeaField.find_ship_vector cells).2.1
          (some (SeaField.find_ship_vector cells).2.2.1)
          (SeaField.find_ship_vector cells).2.2.2) ∧
    SeaPlayground.handle_shoot_answer f SIGNALS.WIN cells =
      (Except.ok (), SeaPlayground.shoot_answer_mark_cell f SIGNALS.WIN cells) ∧
    SeaField.find_ship_vector [(1, 0), (1, 1), (1, 2), (1, 3)] = (1, 0, 4, true) := by
  refine ⟨?_, ?_, by decide⟩
  · simp only [SeaPlayground.handle_shoot_answer, hc, if_true,
      SeaPlayground.shoot_answer_mark_border]
    norm_num [SIGNALS.KILLED]
  · simp only [SeaPlayground.handle_shoot_answer, hc, if_true,
      SeaPlayground.shoot_answer_mark_border]
    norm_num [SIGNALS.KILLED, SIGNALS.WIN, SIGNALS.HITTING]

/-- Witness for claim C2 at a concrete cell set. -/
theorem claim_C2_witness :
    SeaPlayground.handle_shoot_answer (SeaField.make 5 5) SIGNALS.WIN
        [(1, 0), (1, 1), (1, 2), (1, 3)] =
      (Except.ok (), SeaPlayground.shoot_answer_mark_cell (SeaField.make 5 5)
        SIGNALS.WIN [(1, 0), (1, 1), (1, 2), (1, 3)]) :=
  (claim_C2 (SeaField.make 5 5) [(1, 0), (1, 1), (1, 2), (1, 3)]
    (by decide) (by decide)).2.1

/-- Claim C6: get_suitable_cells returns exactly the placements satisfying
is_cell_suitable, in row-major coordinate order (y outer, x inner) with,
for each coordinate, vertical before horizontal — stated as equality with
the spec-side filter of the ordered enumeration. -/
theorem claim_C6 (f : SeaField) (length : Int) :
    SeaPlayground.get_suitable_cells f length = suitableCellsSpec f length := by
  unfold SeaPlayground.get_suitable_cells suitableCellsSpec SeaField.cellsList
  exact flatMap_filterMap_pair _ (fun a b v => f.is_cell_suitable a b length v)

/-- One application of ComputerPlayer.handle_shoot_answer with a MISS on a
single in-bounds cell: the tracking board only gets that cell marked
MISSED. -/
theorem cp_miss_step (f : SeaField) (c : Int × Int)
    (h : f.is_coord_correct c.1 c.2 = true) :
    ComputerPlayer.handle_shoot_answer f SIGNALS.MISS [c] =
      (Except.ok (), f.setc c.1 c.2 Cell.MISSED) := by
  unfold ComputerPlayer.handle_shoot_answer SeaPlayground.handle_shoot_answer
  simp only [List.all_cons, List.all_nil, h, Bool.and_true, if_true]
  unfold SeaPlayground.shoot_answer_mark_cell SeaPlayground.shoot_answer_mark_border
  norm_num [SIGNALS.MISS, SIGNALS.KILLED, SIGNALS.HITTING, SIGNALS.WIN]

/-- Claim C7: recording the same MISS result twice on the same in-bounds
cell leaves the tracking board exactly as recording it once. -/
theorem claim_C7 (f : SeaField) (c : Int × Int)
    (h : f.is_coord_correct c.1 c.2 = true) :
    ComputerPlayer.handle_shoot_answer
        (ComputerPlayer.handle_shoot_answer f SIGNALS.MISS [c]).2 SIGNALS.MISS [c] =
      ComputerPlayer.handle_shoot_answer f SIGNALS.MISS [c] := by
  have h2 : (f.setc c.1 c.2 Cell.MISSED).is_coord_correct c.1 c.2 = true := by
    rw [SeaField.is_coord_correct_setc]; exact h
  rw [cp_miss_step f c h]
  dsimp only
  rw [cp_miss_step _ c h2, SeaField.setc_idem]

/-- Witness for claim C7 at a concrete board and cell. -/
theorem claim_C7_witness :
    ComputerPlayer.handle_shoot_answer
        (ComputerPlayer.handle_shoot_answer (SeaField.make 4 4) SIGNALS.MISS
          [(1, 1)]).2 SIGNALS.MISS [(1, 1)] =
      ComputerPlayer.handle_shoot_answer (SeaField.make 4 4) SIGNALS.MISS [(1, 1)] :=
  claim_C7 (SeaField.make 4 4) (1, 1) (by decide)

/-- Claim C8: whenever put_ship or handle_shoot_answer reports an error,
the field is returned exactly as it was — the checks happen before any cell
is written. -/
theorem claim_C8 (f : SeaField) (x y length : Int) (v : Bool) (signal : Int)
    (cells : List (Int × Int)) :
    (∀ e, (SeaPlayground.put_ship f x y length v).1 = Except.error e →
      (SeaPlayground.put_ship f x y length v).2 = f) ∧
    (∀ e, (SeaPlayground.handle_shoot_answer f signal cells).1 = Except.error e →
      (SeaPlayground.handle_shoot_answer f signal cells).2 = f) := by
  constructor
  · intro e he
    unfold SeaPlayground.put_ship at he ⊢
    split_ifs at he ⊢ <;> rfl
  · intro e he
    unfold SeaPlayground.handle_shoot_answer at he ⊢
    split_ifs at he ⊢ <;> rfl

/-- Witness for claim C8: an out-of-bounds placement, an unsuitable
placement, and an out-of-bounds shot answer all leave the concrete board
untouched. -/
theorem claim_C8_witness :
    (SeaPlayground.put_ship (SeaField.make 5 5) (-1) 2 2 true).2 = SeaField.make 5 5 ∧
    (SeaPlayground.put_ship (SeaField.make 5 5) 0 0 11 false).2 = SeaField.make 5 5 ∧
    (SeaPlayground.handle_shoot_answer (SeaField.make 5 5) SIGNALS.KILLED
        [(7, 0)]).2 = SeaField.make 5 5 :=
  ⟨(claim_C8 (SeaField.make 5 5) (-1) 2 2 true SIGNALS.KILLED [(7, 0)]).1
      SeaErr.incorrectCoordinate (by decide),
   (claim_C8 (SeaField.make 5 5) 0 0 11 false SIGNALS.KILLED [(7, 0)]).1
      SeaErr.incorrectShipPosition (by decide),
   (claim_C8 (SeaField.make 5 5) (-1) 2 2 true SIGNALS.KILLED [(7, 0)]).2
      SeaErr.incorrectCoordinate (by decide)⟩

/-- Claim C10: put_ships_random with the empty fleet list behaves exactly
like the absent argument — both place the standard fleet — and a non-empty
fleet list is used as given. -/
theorem claim_C10 (pick : List (Int × Int × Bool) → Nat) (f : SeaField)
    (l : List Int) (hne : l ≠ []) :
    SeaPlayground.put_ships_random pick f (some []) =
      SeaPlayground.put_ships_random pick f none ∧
    SeaPlayground.put_ships_random pick f none =
      SeaPlayground.put_ships_list pick f STANDARD_SHIP_FLEET ∧
    SeaPlayground.put_ships_random pick f (some l) =
      SeaPlayground.put_ships_list pick f l := by
  refine ⟨rfl, rfl, ?_⟩
  rcases l with _ | ⟨a, t⟩
  · exact absurd rfl hne
  · rfl

/-- Witness for claim C10 at a concrete picker, board and fleet. -/
theorem claim_C10_witness :
    SeaPlayground.put_ships_random (fun _ => 0) (SeaField.make 3 3) (some [1]) =
      SeaPlayground.put_ships_list (fun _ => 0) (SeaField.make 3 3) [1] :=
  (claim_C10 (fun _ => 0) (SeaField.make 3 3) [1] (by decide)).2.2

/-- Claim C9: income_shoot_to never rejects a repeated shot.  A cell whose
state is already HIT still counts as a ship cell, so shooting it again
succeeds, leaves the board unchanged (re-marking HIT), returns a non-MISS
signal, and — when the whole traced ship run is HIT — returns KILLED or WIN
again, carrying the same traced cell set; shooting a BORDER or MISSED cell
marks it MISSED and returns MISS. -/
theorem claim_C9 (f : SeaField) (x y : Int) (h1 : f.is_coord_correct x y = true) :
    (f.get x y = some Cell.HIT →
      (SeaPlayground.income_shoot_to f x y).2 = f ∧
      ∃ ans, (SeaPlayground.income_shoot_to f x y).1 = Except.ok ans ∧
        ans.signal ≠ SIGNALS.MISS ∧
        (((f.find_ship_by_cells x y).all fun c =>
            f.get c.1 c.2 == some Cell.HIT) = true →
          (ans.signal = SIGNALS.KILLED ∨ ans.signal = SIGNALS.WIN) ∧
          ans.cells = f.find_ship_by_cells x y)) ∧
    ((f.get x y = some Cell.BORDER ∨ f.get x y = some Cell.MISSED) →
      SeaPlayground.income_shoot_to f x y =
        (Except.ok { signal := SIGNALS.MISS, cells := [(x, y)] },
         f.setc x y Cell.MISSED)) := by
  constructor
  · intro hGet
    have hShip : f.is_cell_ship x y = true := by
      unfold SeaField.is_cell_ship
      rw [hGet]
      decide
    have hSame : f.setc x y Cell.HIT = f := SeaField.setc_of_get_self hGet
    have hred : SeaPlayground.income_shoot_to f x y =
        (Except.ok
          { signal :=
              if (SeaPlayground.get_killed_ship f x y).isEmpty then SIGNALS.HITTING
              else if f.has_any_alive_ship then SIGNALS.KILLED else SIGNALS.WIN,
            cells :=
              if (SeaPlayground.get_killed_ship f x y).isEmpty then [(x, y)]
              else SeaPlayground.get_killed_ship f x y },
         f) := by
      unfold SeaPlayground.income_shoot_to
      simp only [h1, if_true, hShip, hSame]
      norm_num [SIGNALS.HITTING]
    rw [hred]
    refine ⟨rfl, _, rfl, ?_, ?_⟩
    · dsimp only
      split_ifs <;> decide
    intro hAll
    have hkill : SeaPlayground.get_killed_ship f x y = f.find_ship_by_cells x y := by
      simp only [SeaPlayground.get_killed_ship, hAll, if_true]
    have hne : f.find_ship_by_cells x y ≠ [] :=
      List.ne_nil_of_mem (find_ship_by_cells_self_mem h1 hShip)
    have hempty : (SeaPlayground.get_killed_ship f x y).isEmpty = false := by
      rw [hkill]
      rcases h : f.find_ship_by_cells x y with _ | ⟨a, t⟩
      · exact absurd h hne
      · rfl
    rw [hempty]
    constructor
    · rcases halive : f.has_any_alive_ship <;> simp
    · simp [hkill]
  · intro hGet
    have hShip : f.is_cell_ship x y = false := by
      unfold SeaField.is_cell_ship
      rcases hGet with hG | hG <;> rw [hG] <;> decide
    unfold SeaPlayground.income_shoot_to
    simp only [h1, if_true, hShip, Bool.false_eq_true, if_false]
    norm_num [SIGNALS.MISS, SIGNALS.HITTING]

/-- Witness for claim C9: a repeated shot on an already-HIT cell leaves a
concrete board unchanged, and a shot on a BORDER cell returns MISS and
marks it MISSED. -/
theorem claim_C9_witness :
    (SeaPlayground.income_shoot_to ((SeaField.make 3 3).setc 1 1 Cell.HIT) 1 1).2 =
      (SeaField.make 3 3).setc 1 1 Cell.HIT ∧
    SeaPlayground.income_shoot_to ((SeaField.make 3 3).setc 0 0 Cell.BORDER) 0 0 =
      (Except.ok { signal := SIGNALS.MISS, cells := [(0, 0)] },
       ((SeaField.make 3 3).setc 0 0 Cell.BORDER).setc 0 0 Cell.MISSED) :=
  ⟨((claim_C9 ((SeaField.make 3 3).setc 1 1 Cell.HIT) 1 1 (by decide)).1
      (by decide)).1,
   (claim_C9 ((SeaField.make 3 3).setc 0 0 Cell.BORDER) 0 0 (by decide)).2
     (Or.inl (by decide))⟩
